import Mathlib

set_option autoImplicit false
set_option maxHeartbeats 1000000

/- Verification of the easyaccess eautils layer (fileio.py and dbdo_utils.py).
   Filenames and shell input lines are modelled as lists of characters; the
   external libraries the code delegates to (pandas, fitsio, cx_Oracle, the
   configuration parser, the filesystem) enter the embedding as explicit
   parameters that record only the behavior the code under verification
   depends on (e.g. whether a read or a connection attempt succeeds). -/

/-- A single quote character, used when building the messages the code prints. -/
def sqm : String := ('\x27').toString

/-- Index of the last occurrence of `c` in `l`; `none` models Python rfind = -1. -/
def rfindIdx (c : Char) : List Char → Option Nat
  | [] => none
  | a :: l =>
    match rfindIdx c l with
    | some i => some (i + 1)
    | none => if a = c then some 0 else none

/-- os.path.splitext for POSIX paths (genericpath._splitext with sep = slash,
    extsep = dot): split at the last dot of the base name, except that leading
    dots of the base name never start an extension. -/
def splitext (p : List Char) : List Char × List Char :=
  let sepIndex : Int := match rfindIdx '/' p with | some i => (i : Int) | none => -1
  let dotIndex : Int := match rfindIdx '.' p with | some i => (i : Int) | none => -1
  if sepIndex < dotIndex then
    let fIdx : Nat := (sepIndex + 1).toNat
    let d : Nat := dotIndex.toNat
    if ((p.drop fIdx).take (d - fIdx)).any (fun a => a ≠ '.') then (p.take d, p.drop d)
    else (p, [])
  else (p, [])

/-- fileio.PANDAS_EXTS. -/
def PANDAS_EXTS : List (List Char) := [".csv".toList, ".tab".toList, ".h5".toList]

/-- fileio.FITS_EXTS. -/
def FITS_EXTS : List (List Char) := [".fits".toList]

/-- fileio.FILE_EXTS. -/
def FILE_EXTS : List (List Char) := PANDAS_EXTS ++ FITS_EXTS

/-- The extension the fileio helpers test against the allowed types: the
    splitext extension or, when it is empty, the base name itself
    (fileio.py lines 66-68, "Also allow just the file extension"). -/
def effectiveExt (filename : List Char) : List Char :=
  if (splitext filename).2 = [] then (splitext filename).1 else (splitext filename).2

/-- fileio.unrecognized_filetype: the message of the IOError raised for an
    unsupported extension. -/
def unrecognized_filetype (filename : List Char) (types : List (List Char)) : String :=
  "Unrecognized file type: " ++ sqm ++ (effectiveExt filename).asString ++ sqm ++ "\n" ++
    "Supported filetypes:\n" ++ " " ++
    String.intercalate ", " (types.map (fun t => sqm ++ t.asString ++ sqm))

/-- fileio.check_filetype: returns True when the effective extension is among
    the allowed types (`none` selects the FILE_EXTS default) and raises
    IOError (modelled as `Except.error`) otherwise. -/
def check_filetype (filename : List Char) (types : Option (List (List Char))) :
    Except String Bool :=
  if effectiveExt filename ∈ types.getD FILE_EXTS then .ok true
  else .error (unrecognized_filetype filename (types.getD FILE_EXTS))

/-- Whether an Except value is an error (a raised exception). -/
def isErr {ε α : Type} : Except ε α → Bool
  | .error _ => true
  | .ok _ => false

example : splitext "a/b.c".toList = ("a/b".toList, ".c".toList) := by decide
example : splitext ".csv".toList = (".csv".toList, []) := by decide
example : splitext "x..csv".toList = ("x.".toList, ".csv".toList) := by decide
example : splitext "a/.bashrc".toList = ("a/.bashrc".toList, []) := by decide
example : check_filetype "table.fits".toList none = .ok true := rfl
example : isErr (check_filetype "table.txt".toList none) = true := by decide

/- ===== File reading (fileio.py read_file / read_pandas / read_fitsio) ===== -/

/-- A cell value of a tabular file; the code moves these around opaquely, so an
    integer stands in for arbitrary cell contents. -/
abbrev CellVal := Int

/-- One pandas column as the code observes it: its name, its numpy dtype kind
    and dtype string, and the lengths of its string values (df[c].str.len(),
    consulted only for object ('O') columns). -/
structure PdCol where
  name : String
  kind : Char
  dtypeStr : String
  strLens : List Nat
deriving DecidableEq

/-- A parsed pandas DataFrame: columns plus the 2-D value array (df.values). -/
structure PandasDF where
  cols : List PdCol
  rows : List (List CellVal)
deriving DecidableEq

/-- A FITS binary table as fitsio exposes it: named/typed columns (the record
    dtype descriptor pairs names with dtypes) and the row data. -/
structure FitsTable where
  cols : List (String × String)
  rows : List (List CellVal)
deriving DecidableEq

/-- The external world of parseable files: which filenames pandas respectively
    fitsio could read, and to what (none models the reader raising). The
    pandasRead oracle is never consulted by read_pandas, which fails before
    any read because the module lacks the pandas import (see read_pandas). -/
structure FileSys where
  pandasRead : List Char → Option PandasDF
  fitsRead : List Char → Option FitsTable

/-- Python max() over a list: none on an empty list (ValueError). -/
def pyMax : List Nat → Option Nat
  | [] => none
  | a :: l =>
    match pyMax l with
    | none => some a
    | some b => some (max a b)

/-- The dtype read_pandas computes for one column (fileio.py lines 285-287):
    the pandas dtype, except that object columns get a fixed-width string
    dtype sized by the longest string value. -/
def pandas_col_dtype (c : PdCol) : Option String :=
  if c.kind ≠ 'O' then some c.dtypeStr
  else (pyMax c.strLens).map (fun m => "S" ++ toString m)

/-- The dtype list comprehension of read_pandas over the columns; none when
    any column raises (the max() over an empty object column). -/
def pandas_dtypes_list : List PdCol → Option (List String)
  | [] => some []
  | c :: cs =>
    match pandas_col_dtype c, pandas_dtypes_list cs with
    | some d, some ds => some (d :: ds)
    | _, _ => none

/-- The dtype list the monkey-patch section of read_pandas would attach (one
    entry per column); none when the max() over an empty object column raises.
    Unreachable in this source: the read raises before it (see read_pandas). -/
def pandas_dtypes (df : PandasDF) : Option (List String) :=
  pandas_dtypes_list df.cols

/-- The common row/column/dtype interface the readers monkey-patch onto their
    results (ea_get_columns / ea_get_values / ea_get_dtypes). -/
structure EAData where
  ea_get_columns : List String
  ea_get_values : List (List CellVal)
  ea_get_dtypes : List String
deriving DecidableEq

/-- A Python exception escaping the reader functions. -/
inductive PyErr
  | ioerr (msg : String)
  | valueErr
deriving DecidableEq

/-- fileio.read_pandas: check the extension, then read with pandas. The module
    never imports pandas (its imports are os, numpy, fitsio and eatypes and
    there is no star import), so the pd.read_csv / pd.read_hdf call raises
    NameError on the undefined name pd; the bare except catches it and
    re-raises IOError("Problem reading ..."), whatever the file contains, and
    the monkey-patch section below the try is never reached. -/
def read_pandas (filename : List Char) (fs : FileSys) : Except PyErr EAData :=
  match check_filetype filename (some PANDAS_EXTS) with
  | .error m => .error (.ioerr m)
  | .ok _ => .error (.ioerr ("Problem reading " ++ filename.asString ++ "\n"))

/-- fileio.read_fitsio: check the extension, open with fitsio (IOError when
    that fails), then attach the common interface. -/
def read_fitsio (filename : List Char) (fs : FileSys) : Except PyErr EAData :=
  match check_filetype filename (some FITS_EXTS) with
  | .error m => .error (.ioerr m)
  | .ok _ =>
    match fs.fitsRead filename with
    | none => .error (.ioerr ("Problem reading " ++ filename.asString ++ "\n"))
    | some t => .ok ⟨t.cols.map Prod.fst, t.rows, t.cols.map Prod.snd⟩

/-- fileio.read_file: check the extension (note: the extension string itself is
    passed to check_filetype) and dispatch to the pandas or fitsio reader. -/
def read_file (filename : List Char) (fs : FileSys) : Except PyErr EAData :=
  match check_filetype (splitext filename).2 (some FILE_EXTS) with
  | .error m => .error (.ioerr m)
  | .ok _ =>
    if (splitext filename).2 ∈ PANDAS_EXTS then read_pandas filename fs
    else if (splitext filename).2 ∈ FITS_EXTS then read_fitsio filename fs
    else .error (.ioerr "")

/- ===== Helper lemmas for the fileio claims ===== -/

theorem check_filetype_ok_of_mem (f : List Char) (ts : Option (List (List Char)))
    (h : effectiveExt f ∈ ts.getD FILE_EXTS) : check_filetype f ts = .ok true := by
  simp [check_filetype, h]

theorem check_filetype_error_of_not_mem (f : List Char) (ts : Option (List (List Char)))
    (h : effectiveExt f ∉ ts.getD FILE_EXTS) :
    check_filetype f ts = .error (unrecognized_filetype f (ts.getD FILE_EXTS)) := by
  simp [check_filetype, h]

theorem effectiveExt_of_ext_ne_nil (f : List Char) (h : (splitext f).2 ≠ []) :
    effectiveExt f = (splitext f).2 := by
  simp [effectiveExt, h]

theorem pandas_dtypes_list_length :
    ∀ (l : List PdCol) (ds : List String), pandas_dtypes_list l = some ds →
      ds.length = l.length := by
  intro l
  induction l with
  | nil => intro ds h; simp [pandas_dtypes_list] at h; simp [← h]
  | cons c cs ih =>
    intro ds h
    rw [pandas_dtypes_list] at h
    cases hg : pandas_col_dtype c with
    | none => rw [hg] at h; simp at h
    | some d =>
      rw [hg] at h
      cases ht : pandas_dtypes_list cs with
      | none => rw [ht] at h; simp at h
      | some ds0 =>
        rw [ht] at h
        simp at h
        subst h
        simp [ih ds0 ht]

theorem read_file_pandas_dispatch (f : List Char) (fs : FileSys)
    (h : (splitext f).2 ∈ PANDAS_EXTS) : read_file f fs = read_pandas f fs := by
  simp only [PANDAS_EXTS, List.mem_cons, List.not_mem_nil, or_false] at h
  rcases h with he | he | he <;>
  · unfold read_file
    rw [he]
    rfl

theorem read_file_fits_dispatch (f : List Char) (fs : FileSys)
    (h : (splitext f).2 ∈ FITS_EXTS) : read_file f fs = read_fitsio f fs := by
  simp only [FITS_EXTS, List.mem_cons, List.not_mem_nil, or_false] at h
  unfold read_file
  rw [h]
  rfl

/-- C1: check_filetype accepts exactly the filenames whose effective extension
    (the extension or, when the name has none, the name itself) is one of
    .csv, .tab, .h5, .fits, and raises IOError for every other extension; the
    supported extensions are exactly these four, with the first three routed
    to the pandas reader and .fits to the fitsio reader. -/
theorem check_filetype_exts_spec :
    (∀ f : List Char, effectiveExt f ∈ FILE_EXTS → check_filetype f none = .ok true) ∧
    (∀ f : List Char, effectiveExt f ∉ FILE_EXTS →
      check_filetype f none = .error (unrecognized_filetype f FILE_EXTS)) ∧
    FILE_EXTS = [".csv".toList, ".tab".toList, ".h5".toList, ".fits".toList] ∧
    PANDAS_EXTS = [".csv".toList, ".tab".toList, ".h5".toList] ∧
    FITS_EXTS = [".fits".toList] ∧
    (∀ (f : List Char) (fs : FileSys), (splitext f).2 ∈ PANDAS_EXTS →
      read_file f fs = read_pandas f fs) ∧
    (∀ (f : List Char) (fs : FileSys), (splitext f).2 ∈ FITS_EXTS →
      read_file f fs = read_fitsio f fs) := by
  refine ⟨?_, ?_, by decide, by decide, by decide, read_file_pandas_dispatch,
    read_file_fits_dispatch⟩
  · intro f h
    simpa using check_filetype_ok_of_mem f none (by simpa using h)
  · intro f h
    simpa using check_filetype_error_of_not_mem f none (by simpa using h)

theorem check_filetype_exts_spec_witness :
    check_filetype "data.csv".toList none = .ok true ∧
    check_filetype "data.txt".toList none =
      .error (unrecognized_filetype "data.txt".toList FILE_EXTS) ∧
    read_file "data.fits".toList ⟨fun _ => none, fun _ => none⟩ =
      read_fitsio "data.fits".toList ⟨fun _ => none, fun _ => none⟩ :=
  ⟨check_filetype_exts_spec.1 "data.csv".toList (by decide),
   check_filetype_exts_spec.2.1 "data.txt".toList (by decide),
   check_filetype_exts_spec.2.2.2.2.2.2 "data.fits".toList _ (by decide)⟩

/-- C2 (code bug): fileio.py never imports pandas, so for every filename with
    a pandas extension (.csv, .tab, .h5) read_file raises
    IOError("Problem reading ...") instead of returning the interface object,
    whatever the filesystem holds; only the fitsio path (fitsio is imported)
    returns the object exposing ea_get_columns, ea_get_values (the rows) and
    ea_get_dtypes with one dtype per column, as the claim - and the module's
    own docstrings - say both paths should. -/
theorem read_file_interface_bug :
    (∀ (f : List Char) (fs : FileSys), (splitext f).2 ∈ PANDAS_EXTS →
      read_file f fs = .error (.ioerr ("Problem reading " ++ f.asString ++ "\n"))) ∧
    (∀ (f : List Char) (fs : FileSys) (t : FitsTable),
      (splitext f).2 ∈ FITS_EXTS → fs.fitsRead f = some t →
      read_file f fs = .ok ⟨t.cols.map Prod.fst, t.rows, t.cols.map Prod.snd⟩ ∧
      (t.cols.map Prod.snd).length = (t.cols.map Prod.fst).length) := by
  constructor
  · intro f fs hmem
    have hne : (splitext f).2 ≠ [] := by
      simp only [PANDAS_EXTS, List.mem_cons, List.not_mem_nil, or_false] at hmem
      rcases hmem with he | he | he <;> simp [he]
    have hchk : check_filetype f (some PANDAS_EXTS) = .ok true := by
      apply check_filetype_ok_of_mem
      simpa [effectiveExt_of_ext_ne_nil f hne] using hmem
    rw [read_file_pandas_dispatch f fs hmem]
    unfold read_pandas
    rw [hchk]
  · intro f fs t hmem hread
    have hne : (splitext f).2 ≠ [] := by
      simp only [FITS_EXTS, List.mem_cons, List.not_mem_nil, or_false] at hmem
      simp [hmem]
    have hchk : check_filetype f (some FITS_EXTS) = .ok true := by
      apply check_filetype_ok_of_mem
      simpa [effectiveExt_of_ext_ne_nil f hne] using hmem
    refine ⟨?_, by simp⟩
    rw [read_file_fits_dispatch f fs hmem]
    unfold read_fitsio
    rw [hchk, hread]

/-- A concrete DataFrame, FITS table and filesystem used by the witnesses. -/
def dfW : PandasDF := ⟨[⟨"RA", 'f', "float64", []⟩], [[1], [2]]⟩

def fitsW : FitsTable := ⟨[("RA", "f8")], [[3]]⟩

def fsW : FileSys :=
  ⟨fun f => if f = "data.csv".toList then some dfW else none,
   fun f => if f = "data.fits".toList then some fitsW else none⟩

theorem read_file_interface_bug_witness :
    read_file "data.csv".toList fsW =
      .error (.ioerr ("Problem reading " ++ ("data.csv".toList).asString ++ "\n")) ∧
    (read_file "data.fits".toList fsW =
        .ok ⟨fitsW.cols.map Prod.fst, fitsW.rows, fitsW.cols.map Prod.snd⟩ ∧
      (fitsW.cols.map Prod.snd).length = (fitsW.cols.map Prod.fst).length) :=
  ⟨read_file_interface_bug.1 "data.csv".toList fsW (by decide),
   read_file_interface_bug.2 "data.fits".toList fsW fitsW (by decide) (by decide)⟩

/-- C10: extension matching is case-sensitive: every filename whose effective
    extension differs from a supported extension only in letter case (so its
    lowercasing is supported but it is not itself) is rejected with IOError. -/
theorem check_filetype_case_sensitive :
    ∀ f : List Char, (effectiveExt f).map Char.toLower ∈ FILE_EXTS →
      effectiveExt f ∉ FILE_EXTS →
      check_filetype f none = .error (unrecognized_filetype f FILE_EXTS) := by
  intro f _ hnot
  simpa using check_filetype_error_of_not_mem f none (by simpa using hnot)

theorem check_filetype_case_sensitive_witness :
    check_filetype ".CSV".toList none =
      .error (unrecognized_filetype ".CSV".toList FILE_EXTS) ∧
    check_filetype "data.FITS".toList none =
      .error (unrecognized_filetype "data.FITS".toList FILE_EXTS) :=
  ⟨check_filetype_case_sensitive ".CSV".toList (by decide) (by decide),
   check_filetype_case_sensitive "data.FITS".toList (by decide) (by decide)⟩

/- ===== do_execproc (dbdo_utils.py lines 34-72) ===== -/

/-- The characters Python str.split() treats as whitespace. -/
def isPySpace (c : Char) : Bool :=
  c = ' ' || c = '\t' || c = '\n' || c = '\r' || c = '\x0b' || c = '\x0c'

/-- Index of the first character satisfying p; none models str.index raising
    ValueError. -/
def firstIdx (p : Char → Bool) : List Char → Option Nat
  | [] => none
  | a :: l => if p a then some 0 else (firstIdx p l).map (· + 1)

/-- Python str.split on commas: every comma separates, empty pieces are kept,
    and the empty string yields one empty piece. -/
def splitOnCommaAux : List Char → List Char → List (List Char)
  | [], acc => [acc.reverse]
  | c :: rest, acc =>
    if c = ',' then acc.reverse :: splitOnCommaAux rest []
    else splitOnCommaAux rest (c :: acc)

/-- str.split(single-comma separator). -/
def splitOnComma (l : List Char) : List (List Char) := splitOnCommaAux l []

/-- A parsed procedure argument: a string, or the result of a successful
    float() conversion (float values stay abstract in α). -/
inductive ProcArg (α : Type)
  | str (s : List Char)
  | flt (v : α)
deriving DecidableEq

/-- arg.startswith on a single or double quote. -/
def startsWithQuote : List Char → Bool
  | [] => false
  | c :: _ => c = '"' || c = '\x27'

/-- The per-argument conversion of do_execproc (lines 51-59): a quoted
    argument loses its first and last character; any other argument becomes a
    float when float() succeeds (pyFloat abstracts Python float(); none models
    ValueError) and stays a string otherwise. -/
def parseArg {α : Type} (pyFloat : List Char → Option α) (arg : List Char) : ProcArg α :=
  if startsWithQuote arg then .str ((arg.drop 1).dropLast)
  else
    match pyFloat arg with
    | some v => .flt v
    | none => .str arg

/-- The line cleanup of do_execproc (lines 46-47): drop every semicolon, then
    every whitespace character. -/
def execprocClean (l : List Char) : List Char :=
  (l.filter (fun c => c ≠ ';')).filter (fun c => !isPySpace c)

/-- The parse do_execproc performs (lines 44-59): the empty line shows the
    help (none here); otherwise the cleaned text before the first paren is the
    procedure name and the text from the first paren to the first closing
    paren, split on commas, gives the arguments; a missing paren makes
    str.index raise ValueError (none). -/
def execprocParse {α : Type} (pyFloat : List Char → Option α) (line : List Char) :
    Option (List Char × List (ProcArg α)) :=
  if line = [] then none
  else
    match firstIdx (fun c => c = '(') (execprocClean line),
      firstIdx (fun c => c = ')') (execprocClean line) with
    | some i, some j =>
      some ((execprocClean line).take i,
        (splitOnComma (((execprocClean line).take j).drop (i + 1))).map (parseArg pyFloat))
    | _, _ => none

/-- How one command invocation ends: a normal return to the cmd loop, an
    uncaught exception propagating to the caller, or process termination. -/
inductive RunOutcome
  | ret
  | raised
  | exited (code : Nat)
deriving DecidableEq

/-- do_execproc as the shell loop observes it: the empty line shows the help
    and returns; a line without both parens raises ValueError out of the
    handler; every other line returns, whether it runs the describe query or
    calls the procedure (a callproc failure is caught and printed; its success
    flag callOk never changes the outcome). -/
def do_execproc {α : Type} (pyFloat : List Char → Option α) (line : List Char)
    (callOk : Bool) : RunOutcome :=
  if line = [] then .ret
  else
    match execprocParse pyFloat line with
    | none => .raised
    | some _ => .ret

theorem firstIdx_take {p : Char → Bool} :
    ∀ (l : List Char) (i : Nat), firstIdx p l = some i →
      l.take i = l.takeWhile (fun c => !p c) := by
  intro l
  induction l with
  | nil => intro i h; simp [firstIdx] at h
  | cons a t ih =>
    intro i h
    rw [firstIdx] at h
    by_cases hp : p a
    · simp [hp] at h
      subst h
      simp [List.takeWhile_cons, hp]
    · simp [hp] at h
      obtain ⟨i0, hi0, rfl⟩ := h
      simp [List.takeWhile_cons, hp, ih i0 hi0]

theorem firstIdx_drop_eq_dropWhile {p : Char → Bool} :
    ∀ (l : List Char) (i : Nat), firstIdx p l = some i →
      l.drop i = l.dropWhile (fun c => !p c) := by
  intro l
  induction l with
  | nil => intro i h; simp [firstIdx] at h
  | cons a t ih =>
    intro i h
    rw [firstIdx] at h
    by_cases hp : p a
    · simp [hp] at h
      subst h
      simp [List.dropWhile_cons, hp]
    · simp [hp] at h
      obtain ⟨i0, hi0, rfl⟩ := h
      simp [List.dropWhile_cons, hp, ih i0 hi0]

theorem firstIdx_drop_shift {p : Char → Bool} :
    ∀ (k : Nat) (l : List Char) (j : Nat), firstIdx p l = some j → k ≤ j →
      firstIdx p (l.drop k) = some (j - k) := by
  intro k
  induction k with
  | zero => intro l j h _; simpa using h
  | succ k ih =>
    intro l j h hk
    cases l with
    | nil => simp [firstIdx] at h
    | cons a t =>
      rw [firstIdx] at h
      by_cases hp : p a
      · simp [hp] at h; omega
      · simp [hp] at h
        obtain ⟨j0, hj0, rfl⟩ := h
        rw [List.drop_succ_cons, ih t j0 hj0 (by omega)]
        congr 1
        omega

theorem between_parens_eq (l : List Char) (i j : Nat)
    (hi : firstIdx (fun c => c = '(') l = some i)
    (hj : firstIdx (fun c => c = ')') l = some j) (hij : i < j) :
    (l.take j).drop (i + 1) =
      ((l.dropWhile (fun c => !(c = '('))).drop 1).takeWhile (fun c => !(c = ')')) := by
  have h1 : l.dropWhile (fun c => !(c = '(')) = l.drop i :=
    (firstIdx_drop_eq_dropWhile l i hi).symm
  rw [h1, List.drop_drop]
  have hsh : firstIdx (fun c => c = ')') (l.drop (i + 1)) = some (j - (i + 1)) :=
    firstIdx_drop_shift (i + 1) l j hj (by omega)
  have h2 : (l.drop (i + 1)).takeWhile (fun c => !(c = ')')) =
      (l.drop (i + 1)).take (j - (i + 1)) :=
    (firstIdx_take _ _ hsh).symm
  rw [h2, List.take_drop]
  have h3 : i + 1 + (j - (i + 1)) = j := by omega
  rw [h3]

/-- C7: on every non-empty line whose cleaned text has its first opening paren
    before its first closing paren, do_execproc parses it by removing all
    semicolons and whitespace, taking the procedure name as the text before
    the first paren and splitting the text between the parens on commas into
    arguments; an argument starting with a quote loses its first and last
    characters, and every other argument becomes a float exactly when float()
    succeeds and stays a string otherwise. -/
theorem execproc_parse_spec :
    (∀ (α : Type) (pyFloat : List Char → Option α) (line : List Char) (i j : Nat),
      line ≠ [] →
      firstIdx (fun c => c = '(') (execprocClean line) = some i →
      firstIdx (fun c => c = ')') (execprocClean line) = some j → i < j →
      execprocParse pyFloat line =
        some ((execprocClean line).takeWhile (fun c => !(c = '(')),
          (splitOnComma ((((execprocClean line).dropWhile (fun c => !(c = '('))).drop
            1).takeWhile (fun c => !(c = ')')))).map (parseArg pyFloat))) ∧
    (∀ (α : Type) (pyFloat : List Char → Option α) (a : List Char),
      startsWithQuote a = true → parseArg pyFloat a = .str ((a.drop 1).dropLast)) ∧
    (∀ (α : Type) (pyFloat : List Char → Option α) (a : List Char) (v : α),
      startsWithQuote a = false → pyFloat a = some v → parseArg pyFloat a = .flt v) ∧
    (∀ (α : Type) (pyFloat : List Char → Option α) (a : List Char),
      startsWithQuote a = false → pyFloat a = none → parseArg pyFloat a = .str a) := by
  refine ⟨?_, ?_, ?_, ?_⟩
  · intro α pyFloat line i j hne hi hj hij
    unfold execprocParse
    rw [if_neg hne]
    simp only [hi, hj]
    rw [firstIdx_take _ _ hi, between_parens_eq (execprocClean line) i j hi hj hij]
  · intro α pyFloat a h
    simp [parseArg, h]
  · intro α pyFloat a v h hf
    simp [parseArg, h, hf]
  · intro α pyFloat a h hf
    simp [parseArg, h, hf]

/-- A toy model of Python float() for the witness: only "10" parses. -/
def pyFloatW : List Char → Option Int :=
  fun l => if l = "10".toList then some 10 else none

theorem execproc_parse_spec_witness :
    (execprocParse pyFloatW "myproc( \x27a b\x27, 10, xy );".toList =
      some ((execprocClean "myproc( \x27a b\x27, 10, xy );".toList).takeWhile
          (fun c => !(c = '(')),
        (splitOnComma ((((execprocClean "myproc( \x27a b\x27, 10, xy );".toList).dropWhile
          (fun c => !(c = '('))).drop 1).takeWhile
            (fun c => !(c = ')')))).map (parseArg pyFloatW))) ∧
    parseArg pyFloatW "\x27abc\x27".toList = .str (("\x27abc\x27".toList).drop 1).dropLast ∧
    parseArg pyFloatW "10".toList = .flt 10 ∧
    parseArg pyFloatW "xy".toList = .str "xy".toList :=
  ⟨execproc_parse_spec.1 Int pyFloatW _ 6 17 (by decide) (by decide) (by decide) (by decide),
   execproc_parse_spec.2.1 Int pyFloatW _ (by decide),
   execproc_parse_spec.2.2.1 Int pyFloatW _ 10 (by decide) (by decide),
   execproc_parse_spec.2.2.2 Int pyFloatW _ (by decide) (by decide)⟩

/- ===== do_change_db (dbdo_utils.py lines 104-164) ===== -/

/-- Python str.split() with no separator: split on whitespace runs, dropping
    empty pieces. -/
def wordsAux : List Char → List Char → List (List Char)
  | [], acc => if acc = [] then [] else [acc.reverse]
  | c :: rest, acc =>
    if isPySpace c then
      if acc = [] then wordsAux rest [] else acc.reverse :: wordsAux rest []
    else wordsAux rest (c :: acc)

/-- str.split() on a string. -/
def pyWords (s : String) : List String := (wordsAux s.toList []).map List.asString

/-- The configuration parser of the .desservices.ini file: get section key;
    none models the NoSection/NoOption exception. -/
structure DesConfig where
  get : String → String → Option String

/-- The attributes of the shell object that do_change_db reads or writes and
    the claims observe (the port, prefetch, cursor and autocommit forwarding
    are omitted); conOpen records whether self.con is an open connection. -/
structure DBState where
  dbname : String
  user : String
  password : String
  dbhost : String
  service_name : String
  conOpen : Bool
  quiet : Bool
deriving DecidableEq

/-- How a do_change_db invocation ends. -/
inductive ChangeOutcome
  | help
  | already
  | invalidDb
  | configMissing
  | connectedOk
  | exitProcess
  | raised
deriving DecidableEq

/-- Result of a do_change_db run: the outcome, the state it leaves behind, how
    many connect attempts were made, and the printed messages (colors dropped,
    formats applied). -/
structure ChangeDbOut where
  outcome : ChangeOutcome
  state : DBState
  attemptsMade : Nat
  msgs : List String
deriving DecidableEq

/-- The databases do_change_db recognizes (line 116). -/
def validDbKeys : List String := ["dessci", "desoper", "destest"]

def couldNotConnectMsg : String :=
  "\n ** Could not successfully connect to DB. Try again later. Aborting. ** \n"

def connectErrorMsg : String := "Error when trying to connect to database"

def retryingMsg : String := "\n   Retrying...\n"

def dbNotInServicesMsg (key : String) : String :=
  "DB " ++ key ++ " does not exist in your desservices file"

def dbNoAccessMsg (key : String) : String :=
  "DB " ++ key ++ " does not exist or you don" ++ sqm ++ "t have access to it"

def refreshMsg : String := "Run refresh_metadata_cache to reload the auto-completion metatada"

/-- The connect loop `for tries in range(n)` (line 137 runs it with n = 1):
    try attempt indices in order until one succeeds, returning whether a
    connection was made and how many attempts were used. -/
def connectLoop (ok : Nat → Bool) : Nat → Nat → Bool × Nat
  | 0, tried => (false, tried)
  | n + 1, tried => if ok tried then (true, tried + 1) else connectLoop ok n (tried + 1)

/-- dbdo_utils.DB_Func.do_change_db: the desservices configuration enters as
    cfg and the success of the n-th cx_Oracle connect attempt as connectOk.
    Note that self.dbname is reassigned (line 120) before the configuration
    lookups, that self.con is closed before the reconnect loop, that a failed
    loop ends in os._exit(0) (the exitProcess outcome), and that a
    whitespace-only line raises IndexError out of the handler. -/
def do_change_db (line : String) (st : DBState) (cfg : DesConfig)
    (connectOk : Nat → Bool) : ChangeDbOut :=
  if line = "" then ⟨.help, st, 0, []⟩
  else
    match pyWords line with
    | [] => ⟨.raised, st, 0, []⟩
    | key_db :: _ =>
      if key_db ∈ validDbKeys then
        if key_db = st.dbname then
          ⟨.already, st, 0, ["Already connected to : " ++ key_db]⟩
        else
          match cfg.get ("db-" ++ key_db) "user" with
          | none => ⟨.configMissing, { st with dbname := key_db }, 0,
              [dbNotInServicesMsg key_db]⟩
          | some u =>
            match cfg.get ("db-" ++ key_db) "passwd" with
            | none => ⟨.configMissing, { st with dbname := key_db, user := u }, 0,
                [dbNotInServicesMsg key_db]⟩
            | some pw =>
              match cfg.get ("db-" ++ key_db) "server" with
              | none => ⟨.configMissing,
                  { st with dbname := key_db, user := u, password := pw }, 0,
                  [dbNotInServicesMsg key_db]⟩
              | some hs =>
                match cfg.get ("db-" ++ key_db) "name" with
                | none => ⟨.configMissing,
                    { st with dbname := key_db, user := u, password := pw, dbhost := hs }, 0,
                    [dbNotInServicesMsg key_db]⟩
                | some sn =>
                  if (connectLoop connectOk 1 0).1 then
                    ⟨.connectedOk,
                      { st with
                        dbname := key_db
                        user := u
                        password := pw
                        dbhost := hs
                        service_name := sn
                        conOpen := true },
                      (connectLoop connectOk 1 0).2,
                      (if st.quiet then []
                        else ["Connecting to DB ** " ++ key_db ++ " ** ..."]) ++ [refreshMsg]⟩
                  else
                    ⟨.exitProcess,
                      { st with
                        dbname := key_db
                        user := u
                        password := pw
                        dbhost := hs
                        service_name := sn
                        conOpen := false },
                      (connectLoop connectOk 1 0).2,
                      (if st.quiet then []
                        else ["Connecting to DB ** " ++ key_db ++ " ** ..."]) ++
                        [connectErrorMsg, retryingMsg, couldNotConnectMsg]⟩
      else ⟨.invalidDb, st, 0, [dbNoAccessMsg key_db]⟩

/-- Closed form of do_change_db for a valid new database key whose
    configuration is complete: everything now depends only on the single
    connect attempt. -/
theorem do_change_db_valid_form (key : String) (st : DBState) (cfg : DesConfig)
    (ok : Nat → Bool) (u p hs sn : String)
    (hw : pyWords key = [key]) (hne0 : key ≠ "") (hmem : key ∈ validDbKeys)
    (hnedb : key ≠ st.dbname)
    (hu : cfg.get ("db-" ++ key) "user" = some u)
    (hp : cfg.get ("db-" ++ key) "passwd" = some p)
    (hh : cfg.get ("db-" ++ key) "server" = some hs)
    (hn : cfg.get ("db-" ++ key) "name" = some sn) :
    do_change_db key st cfg ok =
      if (connectLoop ok 1 0).1 then
        ⟨.connectedOk,
          { st with
            dbname := key
            user := u
            password := p
            dbhost := hs
            service_name := sn
            conOpen := true },
          (connectLoop ok 1 0).2,
          (if st.quiet then [] else ["Connecting to DB ** " ++ key ++ " ** ..."]) ++
            [refreshMsg]⟩
      else
        ⟨.exitProcess,
          { st with
            dbname := key
            user := u
            password := p
            dbhost := hs
            service_name := sn
            conOpen := false },
          (connectLoop ok 1 0).2,
          (if st.quiet then [] else ["Connecting to DB ** " ++ key ++ " ** ..."]) ++
            [connectErrorMsg, retryingMsg, couldNotConnectMsg]⟩ := by
  unfold do_change_db
  rw [if_neg hne0, hw]
  simp only [if_pos hmem, if_neg hnedb, hu, hp, hh, hn]

/-- Closed form of do_change_db for a valid new database key that is missing
    from the configuration: the error is reported but dbname stays changed. -/
theorem do_change_db_user_missing (key : String) (st : DBState) (cfg : DesConfig)
    (ok : Nat → Bool) (hw : pyWords key = [key]) (hne0 : key ≠ "")
    (hmem : key ∈ validDbKeys) (hnedb : key ≠ st.dbname)
    (hu : cfg.get ("db-" ++ key) "user" = none) :
    do_change_db key st cfg ok =
      ⟨.configMissing, { st with dbname := key }, 0, [dbNotInServicesMsg key]⟩ := by
  unfold do_change_db
  rw [if_neg hne0, hw]
  simp only [if_pos hmem, if_neg hnedb, hu]

/-- The concrete shell state used by the do_change_db runs: connected to
    dessci with an open connection, not quiet. -/
def stW : DBState := ⟨"dessci", "u", "p", "h", "s", true, false⟩

/-- A desservices configuration that has exactly the db-desoper section. -/
def cfgW : DesConfig := ⟨fun sec key => if sec = "db-desoper" then some key else none⟩

/-- C3 counterexample: with desoper fully configured but the single reconnect
    attempt failing, do_change_db ends in os._exit(0): this command execution
    terminates the process instead of returning control to the shell loop. -/
theorem change_db_exits_process_cex :
    (do_change_db "desoper" stW cfgW (fun _ => false)).outcome =
      ChangeOutcome.exitProcess ∧
    couldNotConnectMsg ∈ (do_change_db "desoper" stW cfgW (fun _ => false)).msgs := by
  decide

/-- C3 (amended): failures print a message and return control to the shell
    loop except that do_change_db terminates the process (os._exit(0)) when
    its single reconnect attempt to a new database fails: do_execproc never
    exits the process, and do_change_db exits exactly on a failed reconnect,
    printing the could-not-connect message first. -/
theorem commands_error_handling_amended :
    (∀ (α : Type) (pyFloat : List Char → Option α) (line : List Char) (callOk : Bool)
      (c : Nat), do_execproc pyFloat line callOk ≠ RunOutcome.exited c) ∧
    (∀ (line : String) (st : DBState) (cfg : DesConfig) (ok : Nat → Bool),
      (do_change_db line st cfg ok).outcome = ChangeOutcome.exitProcess →
      ok 0 = false ∧ couldNotConnectMsg ∈ (do_change_db line st cfg ok).msgs) := by
  constructor
  · intro α pyFloat line callOk c
    unfold do_execproc
    split
    · simp
    · split <;> simp
  · intro line st cfg ok
    unfold do_change_db
    repeat' split
    all_goals intro h
    all_goals simp_all [connectLoop]
    all_goals by_cases hok : ok 0 = true <;> simp_all

theorem commands_error_handling_amended_witness :
    do_execproc pyFloatW "noparens".toList true ≠ RunOutcome.exited 0 ∧
    ((fun (_ : Nat) => false) 0 = false ∧
      couldNotConnectMsg ∈ (do_change_db "desoper" stW cfgW (fun _ => false)).msgs) :=
  ⟨commands_error_handling_amended.1 Int pyFloatW "noparens".toList true 0,
   commands_error_handling_amended.2 "desoper" stW cfgW (fun _ => false) (by decide)⟩

/-- C4: for a valid database key different from the current one with a
    complete desservices entry, do_change_db makes exactly one connect attempt
    (for tries in range(1): no further retries), and when that attempt fails
    it reports that it could not connect. -/
theorem change_db_single_reconnect :
    ∀ (key : String) (st : DBState) (cfg : DesConfig) (ok : Nat → Bool),
      key ∈ validDbKeys → key ≠ st.dbname →
      (∃ u, cfg.get ("db-" ++ key) "user" = some u) →
      (∃ p, cfg.get ("db-" ++ key) "passwd" = some p) →
      (∃ hs, cfg.get ("db-" ++ key) "server" = some hs) →
      (∃ sn, cfg.get ("db-" ++ key) "name" = some sn) →
      (do_change_db key st cfg ok).attemptsMade = 1 ∧
      (ok 0 = false →
        (do_change_db key st cfg ok).outcome = ChangeOutcome.exitProcess ∧
        couldNotConnectMsg ∈ (do_change_db key st cfg ok).msgs) := by
  intro key st cfg ok hmem hne hu0 hp0 hh0 hn0
  obtain ⟨u, hu⟩ := hu0
  obtain ⟨p, hp⟩ := hp0
  obtain ⟨hs, hh⟩ := hh0
  obtain ⟨sn, hn⟩ := hn0
  have hform := do_change_db_valid_form key st cfg ok u p hs sn ?_ ?_ hmem hne hu hp hh hn
  · rw [hform]
    constructor
    · by_cases hok : ok 0 = true <;> simp [connectLoop, hok]
    · intro hok
      simp [connectLoop, hok]
  · simp only [validDbKeys, List.mem_cons, List.not_mem_nil, or_false] at hmem
    rcases hmem with rfl | rfl | rfl <;> decide
  · simp only [validDbKeys, List.mem_cons, List.not_mem_nil, or_false] at hmem
    rcases hmem with rfl | rfl | rfl <;> decide

theorem change_db_single_reconnect_witness :
    (do_change_db "desoper" stW cfgW (fun _ => false)).attemptsMade = 1 ∧
    (do_change_db "desoper" stW cfgW (fun _ => false)).outcome =
      ChangeOutcome.exitProcess ∧
    couldNotConnectMsg ∈ (do_change_db "desoper" stW cfgW (fun _ => false)).msgs := by
  have h := change_db_single_reconnect "desoper" stW cfgW (fun _ => false)
    (by decide) (by decide) ⟨"user", by decide⟩ ⟨"passwd", by decide⟩
    ⟨"server", by decide⟩ ⟨"name", by decide⟩
  exact ⟨h.1, (h.2 rfl).1, (h.2 rfl).2⟩

/-- C8: invoking do_change_db with a valid key absent from the desservices
    configuration reports the error and returns, but self.dbname has already
    been reassigned while the connection is still the open one, so the
    recorded name no longer matches the open connection. -/
theorem change_db_dbname_not_rolled_back :
    ∀ (key : String) (st : DBState) (cfg : DesConfig) (ok : Nat → Bool),
      key ∈ validDbKeys → key ≠ st.dbname →
      cfg.get ("db-" ++ key) "user" = none →
      (do_change_db key st cfg ok).outcome = ChangeOutcome.configMissing ∧
      dbNotInServicesMsg key ∈ (do_change_db key st cfg ok).msgs ∧
      (do_change_db key st cfg ok).state.dbname = key ∧
      (do_change_db key st cfg ok).state.conOpen = st.conOpen := by
  intro key st cfg ok hmem hne hu
  have hform := do_change_db_user_missing key st cfg ok ?_ ?_ hmem hne hu
  · rw [hform]
    simp
  · simp only [validDbKeys, List.mem_cons, List.not_mem_nil, or_false] at hmem
    rcases hmem with rfl | rfl | rfl <;> decide
  · simp only [validDbKeys, List.mem_cons, List.not_mem_nil, or_false] at hmem
    rcases hmem with rfl | rfl | rfl <;> decide

theorem change_db_dbname_not_rolled_back_witness :
    (do_change_db "destest" stW cfgW (fun _ => true)).outcome =
      ChangeOutcome.configMissing ∧
    dbNotInServicesMsg "destest" ∈ (do_change_db "destest" stW cfgW (fun _ => true)).msgs ∧
    (do_change_db "destest" stW cfgW (fun _ => true)).state.dbname = "destest" ∧
    (do_change_db "destest" stW cfgW (fun _ => true)).state.conOpen = stW.conOpen :=
  change_db_dbname_not_rolled_back "destest" stW cfgW (fun _ => true)
    (by decide) (by decide) (by decide)

/- ===== do_set_password (dbdo_utils.py lines 73-102) ===== -/

/-- A word character of the re module for the ASCII range: the characters the
    claim writes as A-Za-z0-9 and the underscore (passwords are modelled over
    this range, where re \w is exactly this set). -/
def isPyWordChar (c : Char) : Bool := c.isAlphanum || c = '_'

/-- re.search on the pattern non-word-char: true when some character of the
    password is outside the word class (line 81). -/
def reSearchNonWord (pw : List Char) : Bool := pw.any (fun c => !isPyWordChar c)

/-- How a do_set_password invocation ends. -/
inductive PwOutcome
  | rejectedNonWord
  | rejectedBlank
  | rejectedMismatch
  | changed
  | failedChange
deriving DecidableEq

/-- Result of a do_set_password run: the outcome, whether the new password was
    written to the configuration file, and the printed messages. -/
structure PwOut where
  outcome : PwOutcome
  configWritten : Bool
  msgs : List String
deriving DecidableEq

def pwNonWordMsg : String := "\nPassword contains whitespace, not set\n"

def pwBlankMsg : String := "\nPassword cannot be blank\n"

def pwMismatchMsg : String := "Passwords don" ++ sqm ++ "t match, not set\n"

/-- dbdo_utils.DB_Func.do_set_password: the two password prompts enter as pw1
    and pw2 and the success of the ALTER USER query as querySucceeds. The
    checks run in source order: the non-word-character search (whose rejection
    message speaks of whitespace) first, the blank check second, the match
    check third; only the success path sets and writes the configuration. -/
def do_set_password (pw1 pw2 : List Char) (dbname : String) (querySucceeds : Bool) :
    PwOut :=
  if reSearchNonWord pw1 then ⟨.rejectedNonWord, false, [pwNonWordMsg]⟩
  else if pw1 = [] then ⟨.rejectedBlank, false, [pwBlankMsg]⟩
  else if pw1 ≠ pw2 then ⟨.rejectedMismatch, false, [pwMismatchMsg]⟩
  else if querySucceeds then
    ⟨.changed, true, ["Password changed in " ++ dbname.toUpper]⟩
  else
    ⟨.failedChange, false, ["Password could not be changed in " ++ dbname.toUpper ++ "\n"]⟩

/-- C9: the password is changed and written to the configuration file only
    when it is non-empty, both entries match and it has no character outside
    the word class A-Za-z0-9 underscore; and any password containing such a
    character - not only whitespace - is rejected with the message that claims
    the password contains whitespace. -/
theorem set_password_validation :
    ∀ (pw1 pw2 : List Char) (dbname : String) (q : Bool),
      (((do_set_password pw1 pw2 dbname q).outcome = PwOutcome.changed ∨
        (do_set_password pw1 pw2 dbname q).configWritten = true) →
        pw1 ≠ [] ∧ pw1 = pw2 ∧ pw1.all isPyWordChar = true) ∧
      (pw1.any (fun c => !isPyWordChar c) = true →
        (do_set_password pw1 pw2 dbname q).outcome = PwOutcome.rejectedNonWord ∧
        (do_set_password pw1 pw2 dbname q).configWritten = false ∧
        (do_set_password pw1 pw2 dbname q).msgs = [pwNonWordMsg]) := by
  intro pw1 pw2 dbname q
  constructor
  · intro h
    by_cases h1 : reSearchNonWord pw1 = true
    · simp [do_set_password, h1] at h
    · by_cases h2 : pw1 = []
      · subst h2
        simp [do_set_password, reSearchNonWord] at h
      · by_cases h3 : pw1 = pw2
        · refine ⟨h2, h3, ?_⟩
          by_contra hw
          apply h1
          simp only [List.all_eq_true] at hw
          push_neg at hw
          obtain ⟨c, hc, hcw⟩ := hw
          simp only [Bool.not_eq_true] at hcw
          simp only [reSearchNonWord, List.any_eq_true]
          exact ⟨c, hc, by simp [hcw]⟩
        · simp [do_set_password, h1, h2, h3] at h
  · intro h
    have h1 : reSearchNonWord pw1 = true := h
    simp [do_set_password, h1]

theorem set_password_validation_witness :
    (("ok_pw".toList : List Char) ≠ [] ∧ "ok_pw".toList = "ok_pw".toList ∧
      ("ok_pw".toList).all isPyWordChar = true) ∧
    ((do_set_password "a b".toList "a b".toList "dessci" true).outcome =
        PwOutcome.rejectedNonWord ∧
      (do_set_password "a b".toList "a b".toList "dessci" true).configWritten = false ∧
      (do_set_password "a b".toList "a b".toList "dessci" true).msgs = [pwNonWordMsg]) :=
  ⟨(set_password_validation "ok_pw".toList "ok_pw".toList "dessci" true).1
      (Or.inl (by decide)),
   (set_password_validation "a b".toList "a b".toList "dessci" true).2 (by decide)⟩

/- ===== do_load_table / do_append_table chunk loops (dbdo_utils.py
   lines 435-529 and 532-692) ===== -/

/-- A database operation the load loop performs: creating the table, or one
    insert_data call recording the chunk length and the iteration counter. -/
inductive DBOp
  | create
  | insert (n : Nat) (iteration : Nat)
deriving DecidableEq

/-- Result of a load run: the total_rows counter, the trace of database
    operations, and whether the run reached the success message (true) or
    took a print_exception / drop_table return path (false). -/
structure LoadOut where
  totalRows : Nat
  ops : List DBOp
  success : Bool
deriving DecidableEq

/-- The fits branch of do_load_table (lines 482-515): slice chunk rows at a
    time (df[1][start:start+chunk]; the rows not yet read are `remaining`),
    break on an empty slice and print success, otherwise count the rows,
    create the table on iteration 0 and insert the slice; a create or insert
    failure prints, drops the table and returns. -/
def loadFitsGo (createOk : Bool) (insertOk : Nat → Bool) (chunk : Nat)
    (remaining : List (List CellVal)) (iteration total : Nat) (ops : List DBOp) :
    LoadOut :=
  if hv : (remaining.take chunk).length = 0 then ⟨total, ops, true⟩
  else
    if iteration = 0 ∧ createOk = false then
      ⟨total + (remaining.take chunk).length, ops, false⟩
    else
      if insertOk iteration then
        loadFitsGo createOk insertOk chunk (remaining.drop chunk) (iteration + 1)
          (total + (remaining.take chunk).length)
          ((if iteration = 0 then ops ++ [DBOp.create] else ops) ++
            [DBOp.insert (remaining.take chunk).length iteration])
      else
        ⟨total + (remaining.take chunk).length,
          if iteration = 0 then ops ++ [DBOp.create] else ops, false⟩
termination_by remaining.length
decreasing_by
  have h1 : remaining ≠ [] := by intro he; rw [he] at hv; simp at hv
  have h2 : chunk ≠ 0 := by intro he; rw [he] at hv; simp at hv
  simp only [List.length_drop]
  exact Nat.sub_lt (List.length_pos.mpr h1) (Nat.pos_of_ne_zero h2)

/-- do_load_table on a FITS file, after the extension and table-existence
    checks: the chunk size defaults to the full row count
    (data[1].get_nrows(), line 484). -/
def do_load_table_fits (rows : List (List CellVal)) (chunkOpt : Option Nat)
    (createOk : Bool) (insertOk : Nat → Bool) : LoadOut :=
  loadFitsGo createOk insertOk (chunkOpt.getD rows.length) rows 0 0 []

/-- The pandas branch of do_load_table (lines 446-480): the reader hands over
    chunks (get_chunk; its StopIteration at the end of the stream is caught by
    the bare except and breaks; a whole-file read is the one-chunk list), an
    empty chunk breaks with success, the table is created on iteration 0 and
    every chunk is inserted; a create or insert failure prints, drops the
    table and returns. -/
def loadPandasGo (createOk : Bool) (insertOk : Nat → Bool) :
    List (List (List CellVal)) → Nat → Nat → List DBOp → LoadOut
  | [], _, total, ops => ⟨total, ops, true⟩
  | df :: rest, iteration, total, ops =>
    if df.length = 0 then ⟨total, ops, true⟩
    else
      if iteration = 0 ∧ createOk = false then ⟨total + df.length, ops, false⟩
      else
        if insertOk iteration then
          loadPandasGo createOk insertOk rest (iteration + 1) (total + df.length)
            ((if iteration = 0 then ops ++ [DBOp.create] else ops) ++
              [DBOp.insert df.length iteration])
        else
          ⟨total + df.length, if iteration = 0 then ops ++ [DBOp.create] else ops, false⟩

/-- do_load_table on a pandas file whose reader yields the given chunks. -/
def do_load_table_pandas (chunks : List (List (List CellVal))) (createOk : Bool)
    (insertOk : Nat → Bool) : LoadOut :=
  loadPandasGo createOk insertOk chunks 0 0 []

/-- The successive length-chunk slices the fits loop reads. -/
def chunksOf (chunk : Nat) (l : List (List CellVal)) : List (List (List CellVal)) :=
  if h : l = [] ∨ chunk = 0 then []
  else l.take chunk :: chunksOf chunk (l.drop chunk)
termination_by l.length
decreasing_by
  push_neg at h
  simp only [List.length_drop]
  exact Nat.sub_lt (List.length_pos.mpr h.1) (Nat.pos_of_ne_zero h.2)

/-- One insert per chunk, numbering the iterations from i. -/
def insertOpsFrom (i : Nat) : List (List (List CellVal)) → List DBOp
  | [] => []
  | c :: cs => DBOp.insert c.length i :: insertOpsFrom (i + 1) cs

/-- The rows a trace inserted: the sum of its insert lengths. -/
def sumInserts (ops : List DBOp) : Nat :=
  (ops.map (fun op => match op with | .create => 0 | .insert n _ => n)).sum

theorem chunksOf_nil (chunk : Nat) : chunksOf chunk [] = [] := by
  rw [chunksOf]
  simp

theorem chunksOf_cons (chunk : Nat) (l : List (List CellVal)) (h1 : l ≠ [])
    (h2 : chunk ≠ 0) :
    chunksOf chunk l = l.take chunk :: chunksOf chunk (l.drop chunk) := by
  rw [chunksOf]
  simp [h1, h2]

theorem chunksOf_length_sum (chunk : Nat) (hc : chunk ≠ 0) :
    ∀ (n : Nat) (l : List (List CellVal)), l.length ≤ n →
      ((chunksOf chunk l).map List.length).sum = l.length := by
  intro n
  induction n with
  | zero =>
    intro l hl
    have he : l = [] := List.length_eq_zero.mp (Nat.le_zero.mp hl)
    subst he
    simp [chunksOf_nil]
  | succ n ih =>
    intro l hl
    by_cases he : l = []
    · subst he; simp [chunksOf_nil]
    · rw [chunksOf_cons chunk l he hc]
      simp only [List.map_cons, List.sum_cons]
      rw [ih (l.drop chunk) ?_]
      · simp only [List.length_take, List.length_drop]
        omega
      · simp only [List.length_drop]
        have := List.length_pos.mpr he
        omega

theorem sumInserts_insertOpsFrom :
    ∀ (cs : List (List (List CellVal))) (i : Nat),
      sumInserts (insertOpsFrom i cs) = (cs.map List.length).sum := by
  intro cs
  induction cs with
  | nil => intro i; simp [insertOpsFrom, sumInserts]
  | cons c cs ih =>
    intro i
    simp only [insertOpsFrom, sumInserts, List.map_cons, List.sum_cons]
    have := ih (i + 1)
    simp only [sumInserts] at this
    rw [this]

theorem loadFitsGo_pos (insertOk : Nat → Bool) (chunk : Nat) (hc : chunk ≠ 0)
    (hok : ∀ i, insertOk i = true) :
    ∀ (n : Nat) (remaining : List (List CellVal)) (iteration total : Nat)
      (ops : List DBOp), remaining.length ≤ n → iteration ≠ 0 →
      loadFitsGo true insertOk chunk remaining iteration total ops =
        ⟨total + remaining.length,
          ops ++ insertOpsFrom iteration (chunksOf chunk remaining), true⟩ := by
  intro n
  induction n with
  | zero =>
    intro remaining iteration total ops hl hit
    have he : remaining = [] := List.length_eq_zero.mp (Nat.le_zero.mp hl)
    subst he
    rw [loadFitsGo]
    simp [chunksOf_nil, insertOpsFrom]
  | succ n ih =>
    intro remaining iteration total ops hl hit
    by_cases he : remaining = []
    · subst he
      rw [loadFitsGo]
      simp [chunksOf_nil, insertOpsFrom]
    · rw [loadFitsGo]
      have hvne : ¬(remaining.take chunk).length = 0 := by
        simp only [List.length_take]
        have := List.length_pos.mpr he
        omega
      rw [dif_neg hvne]
      rw [if_neg (by simp [hit])]
      rw [if_pos (hok iteration)]
      rw [if_neg hit]
      rw [ih (remaining.drop chunk) (iteration + 1)
        (total + (remaining.take chunk).length)
        (ops ++ [DBOp.insert (remaining.take chunk).length iteration]) ?_ (by omega)]
      · rw [chunksOf_cons chunk remaining he hc]
        simp only [insertOpsFrom]
        refine congrArg₂ (fun a b => LoadOut.mk a b true) ?_ ?_
        · simp only [List.length_take, List.length_drop]
          omega
        · simp [List.append_assoc]
      · simp only [List.length_drop]
        have := List.length_pos.mpr he
        omega

theorem do_load_table_fits_closed (rows : List (List CellVal)) (chunkOpt : Option Nat)
    (insertOk : Nat → Bool) (hr : rows ≠ [])
    (hcs : ∀ n, chunkOpt = some n → n ≠ 0) (hok : ∀ i, insertOk i = true) :
    do_load_table_fits rows chunkOpt true insertOk =
      ⟨rows.length,
        DBOp.create :: insertOpsFrom 0 (chunksOf (chunkOpt.getD rows.length) rows),
        true⟩ := by
  have hc : chunkOpt.getD rows.length ≠ 0 := by
    cases chunkOpt with
    | none =>
      simp only [Option.getD_none]
      intro h
      exact hr (List.length_eq_zero.mp h)
    | some m => simpa using hcs m rfl
  unfold do_load_table_fits
  rw [loadFitsGo]
  have hvne : ¬(rows.take (chunkOpt.getD rows.length)).length = 0 := by
    simp only [List.length_take]
    have := List.length_pos.mpr hr
    omega
  rw [dif_neg hvne]
  rw [if_neg (by simp)]
  rw [if_pos (hok 0)]
  rw [if_pos rfl]
  rw [loadFitsGo_pos insertOk (chunkOpt.getD rows.length) hc hok
    (rows.drop (chunkOpt.getD rows.length)).length
    (rows.drop (chunkOpt.getD rows.length)) 1
    (0 + (rows.take (chunkOpt.getD rows.length)).length)
    (([] ++ [DBOp.create]) ++
      [DBOp.insert (rows.take (chunkOpt.getD rows.length)).length 0])
    le_rfl (by omega)]
  rw [chunksOf_cons (chunkOpt.getD rows.length) rows hr hc]
  simp only [insertOpsFrom]
  refine congrArg₂ (fun a b => LoadOut.mk a b true) ?_ ?_
  · simp only [List.length_take, List.length_drop]
    omega
  · simp

theorem loadPandasGo_pos (insertOk : Nat → Bool) (hok : ∀ i, insertOk i = true) :
    ∀ (chunks : List (List (List CellVal))) (iteration total : Nat) (ops : List DBOp),
      (∀ c ∈ chunks, c ≠ []) → iteration ≠ 0 →
      loadPandasGo true insertOk chunks iteration total ops =
        ⟨total + (chunks.map List.length).sum, ops ++ insertOpsFrom iteration chunks,
          true⟩ := by
  intro chunks
  induction chunks with
  | nil =>
    intro iteration total ops _ hit
    simp [loadPandasGo, insertOpsFrom]
  | cons c cs ih =>
    intro iteration total ops hne hit
    have hcne : ¬c.length = 0 := by
      intro h
      exact hne c (List.mem_cons_self c cs) (List.length_eq_zero.mp h)
    rw [loadPandasGo]
    rw [if_neg hcne]
    rw [if_neg (by simp [hit])]
    rw [if_pos (hok iteration)]
    rw [if_neg hit]
    rw [ih (iteration + 1) (total + c.length) (ops ++ [DBOp.insert c.length iteration])
      (fun x hx => hne x (List.mem_cons_of_mem c hx)) (by omega)]
    simp only [insertOpsFrom, List.map_cons, List.sum_cons]
    refine congrArg₂ (fun a b => LoadOut.mk a b true) ?_ ?_
    · omega
    · simp [List.append_assoc]

theorem do_load_table_pandas_closed (chunks : List (List (List CellVal)))
    (insertOk : Nat → Bool) (hne : chunks ≠ []) (hall : ∀ c ∈ chunks, c ≠ [])
    (hok : ∀ i, insertOk i = true) :
    do_load_table_pandas chunks true insertOk =
      ⟨(chunks.map List.length).sum, DBOp.create :: insertOpsFrom 0 chunks, true⟩ := by
  cases chunks with
  | nil => exact absurd rfl hne
  | cons c cs =>
    have hcne : ¬c.length = 0 := by
      intro h
      exact hall c (List.mem_cons_self c cs) (List.length_eq_zero.mp h)
    unfold do_load_table_pandas
    rw [loadPandasGo]
    rw [if_neg hcne]
    rw [if_neg (by simp)]
    rw [if_pos (hok 0)]
    rw [if_pos rfl]
    rw [loadPandasGo_pos insertOk hok cs 1 (0 + c.length)
      (([] ++ [DBOp.create]) ++ [DBOp.insert c.length 0])
      (fun x hx => hall x (List.mem_cons_of_mem c hx)) (by omega)]
    simp only [insertOpsFrom, List.map_cons, List.sum_cons]
    refine congrArg₂ (fun a b => LoadOut.mk a b true) ?_ ?_
    · omega
    · simp

/-- C5 counterexample: loading an empty FITS table (no chunksize given, so
    chunk = get_nrows() = 0) reaches the success message - the load reports
    success with 0 rows - yet create_table is never called, against the
    claimed exactly-once create on every successful load. -/
theorem load_table_empty_no_create_cex :
    (do_load_table_fits [] none true (fun _ => true)).success = true ∧
    (do_load_table_fits [] none true (fun _ => true)).ops.count DBOp.create = 0 := by
  unfold do_load_table_fits
  rw [loadFitsGo]
  simp

/-- C5 (amended): on every successful do_load_table of a file that yields at
    least one row (and a positive chunk size when one is given; all pandas
    chunks non-empty), the trace is create_table once, before the first
    insert, then insert_data once per chunk with iterations 0,1,2,..., and the
    reported row total is the row count of the file, which equals the sum of
    the inserted chunk lengths; a file with no rows never calls create_table
    (see the counterexample). -/
theorem load_table_chunks_amended :
    (∀ (rows : List (List CellVal)) (chunkOpt : Option Nat) (insertOk : Nat → Bool),
      rows ≠ [] → (∀ m, chunkOpt = some m → m ≠ 0) → (∀ i, insertOk i = true) →
      do_load_table_fits rows chunkOpt true insertOk =
        ⟨rows.length,
          DBOp.create :: insertOpsFrom 0 (chunksOf (chunkOpt.getD rows.length) rows),
          true⟩ ∧
      (do_load_table_fits rows chunkOpt true insertOk).totalRows =
        sumInserts (do_load_table_fits rows chunkOpt true insertOk).ops) ∧
    (∀ (chunks : List (List (List CellVal))) (insertOk : Nat → Bool),
      chunks ≠ [] → (∀ c ∈ chunks, c ≠ []) → (∀ i, insertOk i = true) →
      do_load_table_pandas chunks true insertOk =
        ⟨(chunks.map List.length).sum, DBOp.create :: insertOpsFrom 0 chunks, true⟩ ∧
      (do_load_table_pandas chunks true insertOk).totalRows =
        sumInserts (do_load_table_pandas chunks true insertOk).ops) := by
  constructor
  · intro rows chunkOpt insertOk hr hcs hok
    have hcl := do_load_table_fits_closed rows chunkOpt insertOk hr hcs hok
    refine ⟨hcl, ?_⟩
    rw [hcl]
    have hc : chunkOpt.getD rows.length ≠ 0 := by
      cases chunkOpt with
      | none =>
        simp only [Option.getD_none]
        intro h
        exact hr (List.length_eq_zero.mp h)
      | some m => simpa using hcs m rfl
    simp only [sumInserts, List.map_cons, List.sum_cons]
    have hsi := sumInserts_insertOpsFrom (chunksOf (chunkOpt.getD rows.length) rows) 0
    simp only [sumInserts] at hsi
    rw [hsi, chunksOf_length_sum (chunkOpt.getD rows.length) hc rows.length rows le_rfl]
    omega
  · intro chunks insertOk hne hall hok
    have hcl := do_load_table_pandas_closed chunks insertOk hne hall hok
    refine ⟨hcl, ?_⟩
    rw [hcl]
    simp only [sumInserts, List.map_cons, List.sum_cons]
    have hsi := sumInserts_insertOpsFrom chunks 0
    simp only [sumInserts] at hsi
    rw [hsi]
    omega

theorem load_table_chunks_amended_witness :
    (do_load_table_fits [[1], [2], [3]] (some 2) true (fun _ => true) =
      ⟨([[1], [2], [3]] : List (List CellVal)).length,
        DBOp.create :: insertOpsFrom 0
          (chunksOf ((some 2).getD ([[1], [2], [3]] : List (List CellVal)).length)
            [[1], [2], [3]]),
        true⟩ ∧
      (do_load_table_fits [[1], [2], [3]] (some 2) true (fun _ => true)).totalRows =
        sumInserts (do_load_table_fits [[1], [2], [3]] (some 2) true
          (fun _ => true)).ops) ∧
    (do_load_table_pandas [[[4], [5]], [[6]]] true (fun _ => true) =
      ⟨(([[[4], [5]], [[6]]] : List (List (List CellVal))).map List.length).sum,
        DBOp.create :: insertOpsFrom 0 [[[4], [5]], [[6]]], true⟩ ∧
      (do_load_table_pandas [[[4], [5]], [[6]]] true (fun _ => true)).totalRows =
        sumInserts (do_load_table_pandas [[[4], [5]], [[6]]] true
          (fun _ => true)).ops) :=
  ⟨load_table_chunks_amended.1 [[1], [2], [3]] (some 2) (fun _ => true)
      (by decide) (fun m hm => by injection hm with h; omega) (fun _ => rfl),
   load_table_chunks_amended.2 [[[4], [5]], [[6]]] (fun _ => true)
      (by decide) (by decide) (fun _ => rfl)⟩

/-- Result of an append run: the total_rows counter, the rows now present in
    the table (those the successful inserts added), and whether an insert
    failure was printed. -/
structure AppendOut where
  totalRows : Nat
  dbRows : List (List CellVal)
  errored : Bool
deriving DecidableEq

/-- The pandas branch of do_append_table (dbdo_utils.py lines 637-663):
    insert each non-empty chunk in turn into the existing table; an insert
    failure prints the exception and returns, leaving the rows inserted by the
    earlier chunks in the table (unlike do_load_table there is no drop_table
    on this path). -/
def appendPandasGo (insertOk : Nat → Bool) :
    List (List (List CellVal)) → Nat → Nat → List (List CellVal) → AppendOut
  | [], _, total, db => ⟨total, db, false⟩
  | df :: rest, iteration, total, db =>
    if df.length = 0 then ⟨total, db, false⟩
    else
      if insertOk iteration then
        appendPandasGo insertOk rest (iteration + 1) (total + df.length) (db ++ df)
      else ⟨total + df.length, db, true⟩

/-- do_append_table on a chunked pandas read into an existing (empty) table. -/
def do_append_table_pandas (chunks : List (List (List CellVal)))
    (insertOk : Nat → Bool) : AppendOut :=
  appendPandasGo insertOk chunks 0 0 []

/-- C6: chunked loads are not atomic: in this two-chunk do_append_table run
    whose second insert_data fails, the error path prints and returns while
    the row inserted by the first chunk remains in the table. -/
theorem append_table_not_atomic :
    (do_append_table_pandas [[[1]], [[2]]] (fun i => i == 0)).errored = true ∧
    (do_append_table_pandas [[[1]], [[2]]] (fun i => i == 0)).dbRows = [[1]] := by
  decide
